import Mathlib

/-!
Shallow embedding of the URL-shortener core (the `UrlService` class and the
`Url` schema of the source repository).

Modelling conventions:
* Timestamps are natural numbers (milliseconds); `new Date()` becomes an
  explicit `now : Nat` argument.
* The Record Store (MongoDB collection) is a list of records searched by
  `urlCode`; the in-process `Map` cache is an association list.
* JS `undefined`/missing strings become `Option String`; JS truthiness of a
  string option (`customAlias || nanoid(8)`, `click.referer || "Direct"`)
  is modelled by `jsTruthy` (false on absent and on the empty string).
* `nanoid(8)` is an injected fresh code (`freshCode` argument / `gen`
  supplier); `QRCode.toDataURL` is modelled as an opaque pure function.
* Every service method returns its result together with the state after the
  call, so that mutations performed before a throw persist, as they do in
  the source.
* `toFixed(2)` is modelled on rationals by `round2` (round half up at two
  decimal places).
-/

namespace UrlShortner

/-- One entry of the `analytics` array of the `Url` schema
(`{timestamp, ipAddress, userAgent, referer}`). -/
structure ClickEvent where
  timestamp : Nat
  ipAddress : Option String
  userAgent : Option String
  referer : Option String
deriving Repr, DecidableEq

/-- A document of the `Url` collection. -/
structure UrlRecord where
  urlCode : String
  longUrl : String
  shortUrl : String
  qrCode : String
  userId : String
  clicks : Nat
  analytics : List ClickEvent
  createdAt : Nat
  expiresAt : Option Nat
  isExpired : Bool
deriving Repr, DecidableEq

/-- The distinct errors thrown by the service methods.  `typeError` stands
for the JS `TypeError` raised when `getBrowserFromUserAgent` dereferences an
absent `userAgent`; `duplicateKey` for the store's uniqueness-constraint
violation on insert. -/
inductive UrlError where
  | notFound
  | expired
  | invalidAliasFormat
  | aliasInUse
  | notAuthorized
  | typeError
  | duplicateKey
deriving Repr, DecidableEq

/-- The mutable state of the service: the persistent store and the
in-process resolution cache (`this.cache`). -/
structure ServiceState where
  store : List UrlRecord
  cache : List (String × UrlRecord)
deriving Repr, DecidableEq

/-- JS truthiness of an optional string: `undefined` and `""` are falsy. -/
def jsTruthy : Option String → Bool
  | none => false
  | some s => !(s == "")

/-- `Url.findOne({ urlCode })`. -/
def findOne (store : List UrlRecord) (code : String) : Option UrlRecord :=
  store.find? (fun r => r.urlCode == code)

/-- Saving an existing document: replace every stored record carrying that
code (the store's uniqueness constraint means there is at most one). -/
def storeSave (store : List UrlRecord) (r : UrlRecord) : List UrlRecord :=
  store.map (fun s => if s.urlCode == r.urlCode then r else s)

/-- `this.cache.get(code)` (presence tested with `has`). -/
def cacheLookup (cache : List (String × UrlRecord)) (code : String) :
    Option UrlRecord :=
  (cache.find? (fun p => p.1 == code)).map (fun p => p.2)

/-- `this.cache.delete(code)`. -/
def cacheDelete (cache : List (String × UrlRecord)) (code : String) :
    List (String × UrlRecord) :=
  cache.filter (fun p => !(p.1 == code))

/-- `this.cache.set(code, r)`: overwrite the value in the key's original
insertion slot when present, append a fresh entry otherwise (JS `Map.set`). -/
def cacheSet : List (String × UrlRecord) → String → UrlRecord →
    List (String × UrlRecord)
  | [], code, r => [(code, r)]
  | p :: rest, code, r =>
    if p.1 == code then (p.1, r) :: rest else p :: cacheSet rest code r

/-- The `urlSchema.pre('save')` middleware: flip `isExpired` when the
deadline has passed (`new Date() > this.expiresAt`). -/
def preSave (now : Nat) (r : UrlRecord) : UrlRecord :=
  if r.expiresAt.any (fun e => e < now) then { r with isExpired := true }
  else r

/-- The custom-alias format check, `/^[a-zA-Z0-9-_]+$/.test(alias)`. -/
def aliasOk (s : String) : Bool :=
  !(s == "") && s.toList.all (fun c => c.isAlphanum || c == '-' || c == '_')

/-- `QRCode.toDataURL`, treated per the spec as a pure function from a
string to an opaque image payload. -/
def qrEncode (s : String) : String :=
  "data:image/png;base64," ++ s

/-- The document built by `new Url({...})` followed by `url.save()` (the
`pre('save')` middleware applies at the insert). -/
def builtRecord (urlCode longUrl : String) (expiresAt : Option Nat)
    (userId baseUrl : String) (now : Nat) : UrlRecord :=
  preSave now
    { urlCode := urlCode
      longUrl := longUrl
      shortUrl := baseUrl ++ "/" ++ urlCode
      qrCode := qrEncode (baseUrl ++ "/" ++ urlCode)
      userId := userId
      clicks := 0
      analytics := []
      createdAt := now
      expiresAt := expiresAt
      isExpired := false }

/-- `UrlService.createShortUrl(longUrl, customAlias, expiresAt, userId)`.
`freshCode` injects the `nanoid(8)` value, `baseUrl` the `config.baseUrl`.
The `url.save()` insert honours the store's uniqueness constraint by
failing with `duplicateKey` when the code is already taken. -/
def createShortUrl (longUrl : String) (customAlias : Option String)
    (expiresAt : Option Nat) (userId : String) (freshCode : String)
    (baseUrl : String) (now : Nat) (st : ServiceState) :
    Except UrlError UrlRecord × ServiceState :=
  let urlCode := if jsTruthy customAlias then customAlias.getD "" else freshCode
  if jsTruthy customAlias && !aliasOk (customAlias.getD "") then
    (.error .invalidAliasFormat, st)
  else if jsTruthy customAlias && (findOne st.store (customAlias.getD "")).isSome then
    (.error .aliasInUse, st)
  else if (findOne st.store urlCode).isSome then
    (.error .duplicateKey, st)
  else
    let url := builtRecord urlCode longUrl expiresAt userId baseUrl now
    (.ok url,
      { store := st.store ++ [url], cache := cacheSet st.cache urlCode url })

/-- The cache-first step of `getUrl` (lines checking `this.cache`): return
the cached record when it is neither flagged expired nor past its deadline,
otherwise evict the entry and report a miss. -/
def cacheGetStep (cache : List (String × UrlRecord)) (code : String)
    (now : Nat) : Option UrlRecord × List (String × UrlRecord) :=
  match cacheLookup cache code with
  | none => (none, cache)
  | some cachedUrl =>
    if !cachedUrl.isExpired &&
        (cachedUrl.expiresAt.isNone || cachedUrl.expiresAt.any (fun e => now < e)) then
      (some cachedUrl, cache)
    else
      (none, cacheDelete cache code)

/-- The store-backed tail of `getUrl`: `Url.findOne`, the expiration check
with its write-on-read `url.save()`, and the cache refresh. -/
def getUrlStore (code : String) (now : Nat) (st : ServiceState) :
    Except UrlError UrlRecord × ServiceState :=
  match findOne st.store code with
  | none => (.error .notFound, st)
  | some url =>
    if url.isExpired || url.expiresAt.any (fun e => e < now) then
      let url1 := preSave now { url with isExpired := true }
      (.error .expired, { st with store := storeSave st.store url1 })
    else
      (.ok url, { st with cache := cacheSet st.cache code url })

/-- `UrlService.getUrl(urlCode)`. -/
def getUrl (code : String) (now : Nat) (st : ServiceState) :
    Except UrlError UrlRecord × ServiceState :=
  match cacheGetStep st.cache code now with
  | (some cachedUrl, cache1) => (.ok cachedUrl, { st with cache := cache1 })
  | (none, cache1) => getUrlStore code now { st with cache := cache1 }

/-- The request metadata handed to `trackClick` by the redirect handler. -/
structure ReqData where
  ip : Option String
  userAgent : Option String
  referer : Option String
deriving Repr, DecidableEq

/-- The analytics entry pushed by `trackClick`. -/
def mkEvent (now : Nat) (rd : ReqData) : ClickEvent :=
  { timestamp := now
    ipAddress := rd.ip
    userAgent := rd.userAgent
    referer := rd.referer }

/-- `UrlService.trackClick(urlCode, reqData)`: the single atomic
`findOneAndUpdate` with `$inc: {clicks: 1}` and `$push: {analytics: ...}`,
returning the updated document (`new: true`) or `null`, then the cache
refresh.  Update operations bypass the `pre('save')` middleware. -/
def trackClick (code : String) (rd : ReqData) (now : Nat)
    (st : ServiceState) : Option UrlRecord × ServiceState :=
  match findOne st.store code with
  | none => (none, st)
  | some url =>
    let url1 := { url with
      clicks := url.clicks + 1
      analytics := url.analytics ++ [mkEvent now rd] }
    (some url1,
      { store := storeSave st.store url1, cache := cacheSet st.cache code url1 })

/-- `UrlService.deleteUrl(urlCode, userId)`: look up, compare the string
forms of the owner ids, then `url.deleteOne()`.  The cache is not touched. -/
def deleteUrl (code : String) (userId : String) (st : ServiceState) :
    Except UrlError UrlRecord × ServiceState :=
  match findOne st.store code with
  | none => (.error .notFound, st)
  | some url =>
    if !(url.userId == userId) then
      (.error .notAuthorized, st)
    else
      (.ok url,
        { st with store := st.store.filter (fun r => !(r.urlCode == code)) })

/-- Contiguous-substring search on character lists. -/
def charsContain (s pat : List Char) : Bool :=
  match s with
  | [] => pat.isEmpty
  | _ :: rest => pat.isPrefixOf s || charsContain rest pat

/-- `userAgent.includes(pat)`: substring test on the character lists. -/
def strContains (s pat : String) : Bool :=
  charsContain s.toList pat.toList

/-- The pure branch chain of `getBrowserFromUserAgent` on a present
user-agent string: Chrome, Firefox, Safari, Edge in order, first match
wins, `Other` otherwise. -/
def classifyBrowser (ua : String) : String :=
  if strContains ua "Chrome" then "Chrome"
  else if strContains ua "Firefox" then "Firefox"
  else if strContains ua "Safari" then "Safari"
  else if strContains ua "Edge" then "Edge"
  else "Other"

/-- `UrlService.getBrowserFromUserAgent(userAgent)`: calling `.includes`
on an absent value raises a `TypeError`. -/
def getBrowserFromUserAgent : Option String → Except UrlError String
  | none => .error .typeError
  | some ua => .ok (classifyBrowser ua)

/-- The referrer label of one click: `click.referer || 'Direct'`. -/
def referrerOf (ev : ClickEvent) : String :=
  match ev.referer with
  | none => "Direct"
  | some s => if s == "" then "Direct" else s

/-- The UTC calendar-date bucket of a millisecond timestamp
(`timestamp.toISOString().split('T')[0]`), modelled as the day number
since the epoch rendered as a string: the same timestamps share a bucket. -/
def dateOf (t : Nat) : String :=
  toString (t / 86400000)

/-- `stats[key] = (stats[key] || 0) + 1` on a JS object used as a counter
map: increment the entry in its original slot when the key is present,
append a fresh entry with count 1 otherwise. -/
def bump : List (String × Nat) → String → List (String × Nat)
  | [], k => [(k, 1)]
  | p :: rest, k =>
    if p.1 == k then (p.1, p.2 + 1) :: rest else p :: bump rest k

/-- Reading a counter map entry, with 0 for an absent key. -/
def lookupCount (m : List (String × Nat)) (k : String) : Nat :=
  match m.find? (fun p => p.1 == k) with
  | some p => p.2
  | none => 0

/-- The `url.analytics.forEach` accumulation loop of `getUrlStats`: the
browser, referrer and date counters are built event by event; the
`TypeError` from an absent user agent aborts the loop and propagates. -/
def accumStats : List ClickEvent → List (String × Nat) →
    List (String × Nat) → List (String × Nat) →
    Except UrlError (List (String × Nat) × List (String × Nat) × List (String × Nat))
  | [], b, r, d => .ok (b, r, d)
  | ev :: rest, b, r, d =>
    match getBrowserFromUserAgent ev.userAgent with
    | .error e => .error e
    | .ok browser =>
      accumStats rest (bump b browser) (bump r (referrerOf ev)) (bump d (dateOf ev.timestamp))

/-- `x.toFixed(2)`: round half up at two decimal places. -/
def round2 (q : ℚ) : ℚ :=
  (⌊q * 100 + 1 / 2⌋ : ℚ) / 100

/-- `Math.ceil(a / b)` on exact nonnegative values. -/
def natCeilDiv (a b : Nat) : Nat :=
  (a + b - 1) / b

/-- Milliseconds per day, `1000 * 60 * 60 * 24`. -/
def msPerDay : Nat := 86400000

/-- The aggregate returned by `getUrlStats`.  `averageClicksPerDay` is
numeric here where the source produces the `toFixed(2)` string. -/
structure Stats where
  totalClicks : Nat
  browserStats : List (String × Nat)
  referrerStats : List (String × Nat)
  clicksByDate : List (String × Nat)
  lastClicked : Option Nat
  averageClicksPerDay : ℚ
deriving Repr, DecidableEq

/-- `UrlService.getUrlStats(urlCode)`.  The `clicksByDate` map is sorted by
key at the end (`Object.entries(...).sort()`). -/
def getUrlStats (code : String) (now : Nat) (st : ServiceState) :
    Except UrlError Stats × ServiceState :=
  match findOne st.store code with
  | none => (.error .notFound, st)
  | some url =>
    let base : Stats :=
      { totalClicks := url.clicks
        browserStats := []
        referrerStats := []
        clicksByDate := []
        lastClicked := none
        averageClicksPerDay := 0 }
    let withAvg : Stats :=
      match url.analytics.head?, url.analytics.getLast? with
      | some firstClick, some lastClick =>
        let daysSinceCreation := max 1 (natCeilDiv (now - firstClick.timestamp) msPerDay)
        { base with
            lastClicked := some lastClick.timestamp
            averageClicksPerDay := round2 ((url.clicks : ℚ) / (daysSinceCreation : ℚ)) }
      | _, _ => base
    match accumStats url.analytics [] [] [] with
    | .error e => (.error e, st)
    | .ok (b, r, d) =>
      (.ok { withAvg with
               browserStats := b
               referrerStats := r
               clicksByDate := d.mergeSort (fun p q => p.1 ≤ q.1) },
        st)

/-- One element of the `urls` array sent to bulk creation. -/
structure BulkItem where
  longUrl : String
  customAlias : Option String
  expiresAt : Option Nat
deriving Repr, DecidableEq

/-- One per-item outcome pushed by `createBulkUrls`. -/
structure BulkOutcome where
  success : Bool
  originalUrl : String
  shortUrl : Option String
  error : Option UrlError
deriving Repr, DecidableEq

/-- `UrlService.createBulkUrls(urls, userId)`: each item is handed to
`createShortUrl` inside a try/catch; failures are recorded per item and the
loop continues.  `gen` supplies the `nanoid(8)` values, indexed from `k`. -/
def createBulkUrls (items : List BulkItem) (userId : String)
    (gen : Nat → String) (k : Nat) (baseUrl : String) (now : Nat)
    (st : ServiceState) : List BulkOutcome × ServiceState :=
  match items with
  | [] => ([], st)
  | item :: rest =>
    let step := createShortUrl item.longUrl item.customAlias item.expiresAt
      userId (gen k) baseUrl now st
    let outcome : BulkOutcome :=
      match step.1 with
      | .ok url =>
        { success := true
          originalUrl := item.longUrl
          shortUrl := some url.shortUrl
          error := none }
      | .error e =>
        { success := false
          originalUrl := item.longUrl
          shortUrl := none
          error := some e }
    let tail := createBulkUrls rest userId gen (k + 1) baseUrl now step.2
    (outcome :: tail.1, tail.2)

/-! ### Basic lemmas about the store and cache primitives -/

theorem find?_key_cons_pos {β : Type} (a : String × β) (l : List (String × β))
    (k : String) (h : a.1 = k) :
    List.find? (fun p => p.1 == k) (a :: l) = some a := by
  rw [List.find?_cons]
  have : (a.1 == k) = true := by simpa using h
  rw [this]

theorem find?_key_cons_neg {β : Type} (a : String × β) (l : List (String × β))
    (k : String) (h : ¬ a.1 = k) :
    List.find? (fun p => p.1 == k) (a :: l) = List.find? (fun p => p.1 == k) l := by
  rw [List.find?_cons]
  have : (a.1 == k) = false := by simpa using h
  rw [this]

theorem find?_code_cons_pos (a : UrlRecord) (l : List UrlRecord)
    (c : String) (h : a.urlCode = c) :
    List.find? (fun r => r.urlCode == c) (a :: l) = some a := by
  rw [List.find?_cons]
  have : (a.urlCode == c) = true := by simpa using h
  rw [this]

theorem find?_code_cons_neg (a : UrlRecord) (l : List UrlRecord)
    (c : String) (h : ¬ a.urlCode = c) :
    List.find? (fun r => r.urlCode == c) (a :: l) =
      List.find? (fun r => r.urlCode == c) l := by
  rw [List.find?_cons]
  have : (a.urlCode == c) = false := by simpa using h
  rw [this]

theorem findOne_eq_some (store : List UrlRecord) (code : String)
    (r : UrlRecord) (h : findOne store code = some r) :
    r ∈ store ∧ r.urlCode = code := by
  unfold findOne at h
  refine ⟨List.mem_of_find?_eq_some h, ?_⟩
  have hp := List.find?_some h
  simpa using hp

theorem findOne_filter_self (store : List UrlRecord) (code : String) :
    findOne (store.filter (fun r => !(r.urlCode == code))) code = none := by
  unfold findOne
  rw [List.find?_eq_none]
  intro r hr
  have := (List.mem_filter.mp hr).2
  simpa using this

theorem findOne_storeSave_self (store : List UrlRecord) (code : String)
    (r r1 : UrlRecord) (h : findOne store code = some r)
    (hc : r1.urlCode = code) :
    findOne (storeSave store r1) code = some r1 := by
  unfold findOne storeSave
  unfold findOne at h
  induction store with
  | nil => simp at h
  | cons a l ih =>
    by_cases ha : a.urlCode = code
    · simp [ha, hc]
    · have ha1 : ¬ (a.urlCode == r1.urlCode) = true := by
        rw [hc]; simpa using ha
      rw [find?_code_cons_neg _ _ _ ha] at h
      simp only [List.map_cons, if_neg ha1]
      rw [find?_code_cons_neg _ _ _ ha]
      exact ih h

theorem findOne_storeSave_mem (store : List UrlRecord) (r1 s : UrlRecord)
    (hs : s ∈ storeSave store r1) :
    s = r1 ∨ s ∈ store := by
  unfold storeSave at hs
  rcases List.mem_map.mp hs with ⟨a, ha, heq⟩
  by_cases h : a.urlCode = r1.urlCode
  · left; rw [← heq]; simp [h]
  · right; rw [← heq]; simpa [h] using ha

theorem findOne_append_none (store : List UrlRecord) (code : String)
    (r : UrlRecord) (h : findOne store code = none) (hc : r.urlCode = code) :
    findOne (store ++ [r]) code = some r := by
  unfold findOne at h ⊢
  rw [List.find?_append, h]
  simp [List.find?, hc]

theorem cacheLookup_cacheSet_self (cache : List (String × UrlRecord))
    (code : String) (r : UrlRecord) :
    cacheLookup (cacheSet cache code r) code = some r := by
  unfold cacheLookup
  induction cache with
  | nil => simp [cacheSet]
  | cons a l ih =>
    by_cases ha : a.1 = code
    · simp [cacheSet, ha]
    · have hne : ¬ (a.1 == code) = true := by simpa using ha
      rw [cacheSet, if_neg hne, find?_key_cons_neg _ _ _ ha]
      exact ih

theorem cacheLookup_cacheDelete_self (cache : List (String × UrlRecord))
    (code : String) :
    cacheLookup (cacheDelete cache code) code = none := by
  unfold cacheLookup cacheDelete
  rw [List.find?_eq_none.mpr]
  · rfl
  · intro p hp
    have := (List.mem_filter.mp hp).2
    simpa using this

theorem lookupCount_bump_self (m : List (String × Nat)) (k : String) :
    lookupCount (bump m k) k = lookupCount m k + 1 := by
  unfold lookupCount
  induction m with
  | nil => simp [bump]
  | cons a l ih =>
    by_cases ha : a.1 = k
    · simp [bump, ha]
    · have hne : ¬ (a.1 == k) = true := by simpa using ha
      rw [bump, if_neg hne, find?_key_cons_neg _ _ _ ha,
        find?_key_cons_neg _ _ _ ha]
      exact ih

theorem lookupCount_bump_other (m : List (String × Nat)) (k k1 : String)
    (h : k1 ≠ k) :
    lookupCount (bump m k) k1 = lookupCount m k1 := by
  have hk1 : ¬ k = k1 := fun hk => h hk.symm
  unfold lookupCount
  induction m with
  | nil =>
    rw [show bump [] k = [(k, 1)] from rfl,
      find?_key_cons_neg ((k, 1) : String × Nat) [] k1 hk1]
  | cons a l ih =>
    by_cases ha : a.1 = k
    · rw [bump, if_pos (by simpa using ha)]
      have hne1 : ¬ a.1 = k1 := by
        intro hk; exact h (by rw [← hk, ha])
      rw [find?_key_cons_neg ((a.1, a.2 + 1) : String × Nat) _ _ hne1,
        find?_key_cons_neg _ _ _ hne1]
    · have hne : ¬ (a.1 == k) = true := by simpa using ha
      rw [bump, if_neg hne]
      by_cases ha1 : a.1 = k1
      · rw [find?_key_cons_pos _ _ _ ha1, find?_key_cons_pos _ _ _ ha1]
      · rw [find?_key_cons_neg _ _ _ ha1, find?_key_cons_neg _ _ _ ha1]
        exact ih

/-! ### Concrete states used by counterexamples and witnesses -/

/-- The empty service state. -/
def emptyState : ServiceState := { store := [], cache := [] }

/-- A concrete non-expiring record owned by `"u1"`. -/
def demoRecord : UrlRecord :=
  { urlCode := "abc"
    longUrl := "http://example.com/long"
    shortUrl := "http://b/abc"
    qrCode := "data:image/png;base64,http://b/abc"
    userId := "u1"
    clicks := 0
    analytics := []
    createdAt := 0
    expiresAt := none
    isExpired := false }

/-- A state holding `demoRecord` in the store and, as after its creation,
in the cache as well. -/
def demoState : ServiceState :=
  { store := [demoRecord], cache := [("abc", demoRecord)] }

/-! ### C1 -/

/-- C1 counterexample: `deleteUrl` performs no cache invalidation, so after
an owner-authorized delete of a record that was still cached (as every
record is right after creation), `getUrl` serves the deleted record from
the cache instead of failing with `NotFound`. -/
theorem deleteUrl_cache_not_invalidated_cex :
    (deleteUrl "abc" "u1" demoState).1 = .ok demoRecord ∧
    findOne (deleteUrl "abc" "u1" demoState).2.store "abc" = none ∧
    (getUrl "abc" 5 (deleteUrl "abc" "u1" demoState).2).1 = .ok demoRecord := by
  exact ⟨rfl, rfl, rfl⟩

/-- C1 (amended): `deleteUrl(code, requesterId)` fails with `NotFound` when
no record with that code exists; fails with `NotAuthorized`, leaving the
state unchanged (so the record stays resolvable), when the record's owner
differs from the requester under string comparison; and otherwise removes
the record from the store while leaving the cache untouched, so that a
subsequent `resolve(code)` fails with `NotFound` only when the cache holds
no entry for the code. -/
theorem deleteUrl_spec (code uid : String) (st : ServiceState) :
    (findOne st.store code = none →
      deleteUrl code uid st = (.error .notFound, st)) ∧
    (∀ r, findOne st.store code = some r → r.userId ≠ uid →
      deleteUrl code uid st = (.error .notAuthorized, st)) ∧
    (∀ r, findOne st.store code = some r → r.userId = uid →
      (deleteUrl code uid st).1 = .ok r ∧
      findOne (deleteUrl code uid st).2.store code = none ∧
      (deleteUrl code uid st).2.cache = st.cache ∧
      (cacheLookup st.cache code = none →
        ∀ now, (getUrl code now (deleteUrl code uid st).2).1 = .error .notFound)) := by
  refine ⟨?_, ?_, ?_⟩
  · intro h
    simp [deleteUrl, h]
  · intro r hr hu
    have hu1 : ¬ (r.userId == uid) = true := by simpa using hu
    simp [deleteUrl, hr, hu1]
  · intro r hr hu
    have hu1 : (r.userId == uid) = true := by simpa using hu
    refine ⟨by simp [deleteUrl, hr, hu1], ?_, by simp [deleteUrl, hr, hu1], ?_⟩
    · simp only [deleteUrl, hr, hu1, Bool.not_true, Bool.false_eq_true,
        if_false]
      exact findOne_filter_self st.store code
    · intro hc now
      have hstore : findOne (deleteUrl code uid st).2.store code = none := by
        simp only [deleteUrl, hr, hu1, Bool.not_true, Bool.false_eq_true,
          if_false]
        exact findOne_filter_self st.store code
      have hcache : (deleteUrl code uid st).2.cache = st.cache := by
        simp [deleteUrl, hr, hu1]
      unfold getUrl cacheGetStep
      rw [hcache, hc]
      simp [getUrlStore, hstore]

/-- Witness for C1: a non-owner delete fails with `NotAuthorized` and
leaves the state (hence resolvability) unchanged. -/
theorem deleteUrl_spec_witness :
    deleteUrl "abc" "u2" demoState = (.error .notAuthorized, demoState) :=
  (deleteUrl_spec "abc" "u2" demoState).2.1 demoRecord rfl (by decide)

/-! ### Step lemmas for `createShortUrl` -/

theorem builtRecord_urlCode (code l : String) (eAt : Option Nat)
    (u b : String) (now : Nat) :
    (builtRecord code l eAt u b now).urlCode = code := by
  unfold builtRecord preSave
  split <;> rfl

theorem builtRecord_clicks (code l : String) (eAt : Option Nat)
    (u b : String) (now : Nat) :
    (builtRecord code l eAt u b now).clicks = 0 := by
  unfold builtRecord preSave
  split <;> rfl

theorem builtRecord_analytics (code l : String) (eAt : Option Nat)
    (u b : String) (now : Nat) :
    (builtRecord code l eAt u b now).analytics = [] := by
  unfold builtRecord preSave
  split <;> rfl

theorem createShortUrl_alias_invalid (l a : String) (eAt : Option Nat)
    (u f b : String) (now : Nat) (st : ServiceState)
    (ht : jsTruthy (some a) = true) (hbad : aliasOk a = false) :
    createShortUrl l (some a) eAt u f b now st =
      (.error .invalidAliasFormat, st) := by
  simp [createShortUrl, ht, hbad]

theorem createShortUrl_alias_in_use (l a : String) (eAt : Option Nat)
    (u f b : String) (now : Nat) (st : ServiceState)
    (ht : jsTruthy (some a) = true) (hok : aliasOk a = true)
    (hsome : (findOne st.store a).isSome = true) :
    createShortUrl l (some a) eAt u f b now st = (.error .aliasInUse, st) := by
  simp [createShortUrl, ht, hok, hsome]

theorem createShortUrl_custom_ok (l a : String) (eAt : Option Nat)
    (u f b : String) (now : Nat) (st : ServiceState)
    (ht : jsTruthy (some a) = true) (hok : aliasOk a = true)
    (hnone : findOne st.store a = none) :
    createShortUrl l (some a) eAt u f b now st =
      (.ok (builtRecord a l eAt u b now),
        { store := st.store ++ [builtRecord a l eAt u b now]
          cache := cacheSet st.cache a (builtRecord a l eAt u b now) }) := by
  simp [createShortUrl, ht, hok, hnone]

/-! ### C5 -/

/-- The record produced by a create whose alias is the empty string: the
fresh generated code is used instead. -/
def emptyAliasRecord : UrlRecord :=
  { urlCode := "gen8code"
    longUrl := "http://x"
    shortUrl := "http://b/gen8code"
    qrCode := "data:image/png;base64,http://b/gen8code"
    userId := "u"
    clicks := 0
    analytics := []
    createdAt := 0
    expiresAt := none
    isExpired := false }

/-- C5 counterexample: the empty string is a supplied custom alias that
does not match `[A-Za-z0-9_-]+`, yet `createShortUrl` does not fail with
`InvalidAliasFormat`: JS truthiness (`customAlias || nanoid(8)`) treats
`""` as absent, so creation succeeds with a generated code. -/
theorem createShortUrl_empty_alias_cex :
    aliasOk "" = false ∧
    (createShortUrl "http://x" (some "") none "u" "gen8code" "http://b" 0
      emptyState).1 = .ok emptyAliasRecord := by
  exact ⟨rfl, rfl⟩

/-- C5 (amended): for every create with a supplied nonempty `customAlias`:
if the alias does not match `[A-Za-z0-9_-]+` it fails with
`InvalidAliasFormat` before any store write; if a record with that code
already exists it fails with `AliasAlreadyInUse`; otherwise the created
record's code is the alias unchanged, and a second create with the same
alias fails with `AliasAlreadyInUse`. -/
theorem createShortUrl_custom_alias_spec (longUrl a : String)
    (eAt : Option Nat) (uid fresh baseUrl : String) (now : Nat)
    (st : ServiceState) (hne : a ≠ "") :
    (aliasOk a = false →
      createShortUrl longUrl (some a) eAt uid fresh baseUrl now st =
        (.error .invalidAliasFormat, st)) ∧
    (aliasOk a = true → ∀ r0, findOne st.store a = some r0 →
      createShortUrl longUrl (some a) eAt uid fresh baseUrl now st =
        (.error .aliasInUse, st)) ∧
    (aliasOk a = true → findOne st.store a = none →
      ∃ r, (createShortUrl longUrl (some a) eAt uid fresh baseUrl now st).1 =
          .ok r ∧ r.urlCode = a ∧
        ∀ l2 e2 u2 f2 now2,
          (createShortUrl l2 (some a) e2 u2 f2 baseUrl now2
            (createShortUrl longUrl (some a) eAt uid fresh baseUrl now st).2).1 =
            .error .aliasInUse) := by
  have ht : jsTruthy (some a) = true := by
    simp [jsTruthy, hne]
  refine ⟨?_, ?_, ?_⟩
  · intro hbad
    exact createShortUrl_alias_invalid longUrl a eAt uid fresh baseUrl now st
      ht hbad
  · intro hok r0 hr0
    exact createShortUrl_alias_in_use longUrl a eAt uid fresh baseUrl now st
      ht hok (by simp [hr0])
  · intro hok hnone
    have hmk := createShortUrl_custom_ok longUrl a eAt uid fresh baseUrl now
      st ht hok hnone
    refine ⟨builtRecord a longUrl eAt uid baseUrl now, ?_,
      builtRecord_urlCode a longUrl eAt uid baseUrl now, ?_⟩
    · rw [hmk]
    · intro l2 e2 u2 f2 now2
      have hfound := findOne_append_none st.store a _ hnone
        (builtRecord_urlCode a longUrl eAt uid baseUrl now)
      have hsome : (findOne (createShortUrl longUrl (some a) eAt uid fresh
          baseUrl now st).2.store a).isSome = true := by
        rw [hmk]
        simp [hfound]
      rw [createShortUrl_alias_in_use l2 a e2 u2 f2 baseUrl now2 _ ht hok
        hsome]

/-- Witness for C5: a malformed nonempty alias is rejected with
`InvalidAliasFormat` and the state is untouched. -/
theorem createShortUrl_custom_alias_spec_witness :
    createShortUrl "http://x" (some "bad alias!") none "u" "f" "b" 0
      emptyState = (.error .invalidAliasFormat, emptyState) :=
  (createShortUrl_custom_alias_spec "http://x" "bad alias!" none "u" "f" "b"
    0 emptyState (by decide)).1 (by decide)

/-! ### C6 -/

/-- C6: the cache step of `getUrl` never returns an expired record: a hit
is only served when the record is not flagged expired and its deadline (if
any) lies in the future, and when the cached record is flagged expired or
its deadline has passed the entry is evicted and the lookup proceeds as a
miss against the store. -/
theorem cache_get_never_returns_expired (st : ServiceState) (code : String)
    (now : Nat) :
    (∀ c, (cacheGetStep st.cache code now).1 = some c →
      c.isExpired = false ∧ ∀ e, c.expiresAt = some e → now < e) ∧
    (∀ c, cacheLookup st.cache code = some c →
      c.isExpired = true ∨ (∃ e, c.expiresAt = some e ∧ e < now) →
      cacheGetStep st.cache code now = (none, cacheDelete st.cache code) ∧
      cacheLookup (cacheDelete st.cache code) code = none ∧
      getUrl code now st =
        getUrlStore code now { st with cache := cacheDelete st.cache code }) := by
  constructor
  · intro c hc
    unfold cacheGetStep at hc
    cases hl : cacheLookup st.cache code with
    | none => rw [hl] at hc; simp at hc
    | some c0 =>
      rw [hl] at hc
      by_cases hcond : (!c0.isExpired &&
          (c0.expiresAt.isNone || c0.expiresAt.any (fun e => now < e))) = true
      · simp only [hcond, if_true] at hc
        have hcc : c0 = c := by simpa using hc
        subst hcc
        rcases Bool.and_eq_true .. |>.mp hcond with ⟨h1, h2⟩
        refine ⟨by simpa using h1, ?_⟩
        intro e he
        rcases Bool.or_eq_true .. |>.mp h2 with h3 | h3
        · rw [he] at h3; simp at h3
        · rw [he] at h3; simpa using h3
      · simp [hcond] at hc
  · intro c hc hexp
    have hcond : (!c.isExpired &&
        (c.expiresAt.isNone || c.expiresAt.any (fun e => now < e))) = false := by
      rcases hexp with h1 | ⟨e, he, hlt⟩
      · simp [h1]
      · have : ¬ now < e := Nat.not_lt.mpr (Nat.le_of_lt hlt)
        simp [he, this]
    have hstep : cacheGetStep st.cache code now =
        (none, cacheDelete st.cache code) := by
      unfold cacheGetStep
      rw [hc]
      simp [hcond]
    refine ⟨hstep, cacheLookup_cacheDelete_self st.cache code, ?_⟩
    unfold getUrl
    rw [hstep]

/-- A record flagged expired, sitting only in the cache. -/
def expiredCachedRecord : UrlRecord :=
  { demoRecord with urlCode := "old", isExpired := true }

/-- A state whose cache still holds an expired record the store no longer
has. -/
def expiredCacheState : ServiceState :=
  { store := [], cache := [("old", expiredCachedRecord)] }

/-- Witness for C6: an expired cached entry is evicted and the lookup
falls through to the store. -/
theorem cache_get_never_returns_expired_witness :
    cacheGetStep expiredCacheState.cache "old" 7 =
      (none, cacheDelete expiredCacheState.cache "old") ∧
    cacheLookup (cacheDelete expiredCacheState.cache "old") "old" = none ∧
    getUrl "old" 7 expiredCacheState =
      getUrlStore "old" 7
        { expiredCacheState with
            cache := cacheDelete expiredCacheState.cache "old" } :=
  (cache_get_never_returns_expired expiredCacheState "old" 7).2
    expiredCachedRecord rfl (Or.inl rfl)

/-! ### Step lemmas for `getUrl` and `preSave` -/

theorem preSave_urlCode (now : Nat) (r : UrlRecord) :
    (preSave now r).urlCode = r.urlCode := by
  unfold preSave
  split <;> rfl

theorem preSave_clicks (now : Nat) (r : UrlRecord) :
    (preSave now r).clicks = r.clicks := by
  unfold preSave
  split <;> rfl

theorem preSave_analytics (now : Nat) (r : UrlRecord) :
    (preSave now r).analytics = r.analytics := by
  unfold preSave
  split <;> rfl

theorem preSave_isExpired_of_true (now : Nat) (r : UrlRecord)
    (h : r.isExpired = true) : (preSave now r).isExpired = true := by
  unfold preSave
  split
  · rfl
  · exact h

theorem cacheGetStep_of_lookup_none (cache : List (String × UrlRecord))
    (code : String) (now : Nat) (h : cacheLookup cache code = none) :
    cacheGetStep cache code now = (none, cache) := by
  unfold cacheGetStep
  rw [h]

theorem getUrlStore_expired (code : String) (now : Nat) (st : ServiceState)
    (r : UrlRecord) (hr : findOne st.store code = some r)
    (hex : (r.isExpired || r.expiresAt.any (fun e => e < now)) = true) :
    getUrlStore code now st =
      (.error .expired,
        { st with
            store := storeSave st.store (preSave now { r with isExpired := true }) }) := by
  unfold getUrlStore
  rw [hr]
  simp [hex]

theorem getUrl_fst_expired (code : String) (now1 : Nat) (st1 : ServiceState)
    (r1 : UrlRecord) (hn : cacheLookup st1.cache code = none)
    (hf : findOne st1.store code = some r1)
    (hex1 : (r1.isExpired || r1.expiresAt.any (fun x => x < now1)) = true) :
    (getUrl code now1 st1).1 = .error .expired := by
  unfold getUrl
  rw [cacheGetStep_of_lookup_none st1.cache code now1 hn]
  show (getUrlStore code now1 st1).1 = .error .expired
  rw [getUrlStore_expired code now1 st1 r1 hf hex1]

/-! ### C3 -/

/-- C3: when a record's `expiresAt` deadline has passed (and any cached
copy carries the same immutable deadline), `resolve` fails with `Expired`,
the now-true `expired` flag is persisted to the store as part of that
failing call, and every subsequent `resolve` of the code on the resulting
state fails with `Expired` again, at every later (or earlier) clock
reading — the record never reverts to being resolvable. -/
theorem resolve_expired_terminal (code : String) (now : Nat)
    (st : ServiceState) (r : UrlRecord) (e : Nat)
    (hr : findOne st.store code = some r) (he : r.expiresAt = some e)
    (hlt : e < now)
    (hc : ∀ c, cacheLookup st.cache code = some c →
      c.expiresAt = r.expiresAt) :
    (getUrl code now st).1 = .error .expired ∧
    (∃ r1, findOne (getUrl code now st).2.store code = some r1 ∧
      r1.isExpired = true) ∧
    (∀ now1, (getUrl code now1 (getUrl code now st).2).1 = .error .expired) := by
  have hcode : r.urlCode = code := (findOne_eq_some st.store code r hr).2
  -- the cache step always reports a miss, with the entry for `code` gone
  have hstep : ∃ cache1, cacheGetStep st.cache code now = (none, cache1) ∧
      cacheLookup cache1 code = none := by
    cases hl : cacheLookup st.cache code with
    | none => exact ⟨st.cache, cacheGetStep_of_lookup_none st.cache code now hl, hl⟩
    | some c =>
      have hce : c.expiresAt = some e := by rw [hc c hl, he]
      have hcond : (!c.isExpired &&
          (c.expiresAt.isNone || c.expiresAt.any (fun x => now < x))) = false := by
        have : ¬ now < e := Nat.not_lt.mpr (Nat.le_of_lt hlt)
        simp [hce, this]
      refine ⟨cacheDelete st.cache code, ?_,
        cacheLookup_cacheDelete_self st.cache code⟩
      unfold cacheGetStep
      rw [hl]
      simp [hcond]
  obtain ⟨cache1, hstep1, hnone1⟩ := hstep
  have hex : (r.isExpired || r.expiresAt.any (fun x => x < now)) = true := by
    simp [he, hlt]
  have hget : getUrl code now st =
      (.error .expired,
        { store := storeSave st.store (preSave now { r with isExpired := true })
          cache := cache1 }) := by
    unfold getUrl
    rw [hstep1]
    exact getUrlStore_expired code now { store := st.store, cache := cache1 }
      r hr hex
  set r1 := preSave now { r with isExpired := true } with hr1def
  have hr1exp : r1.isExpired = true :=
    preSave_isExpired_of_true now { r with isExpired := true } rfl
  have hr1code : r1.urlCode = code := by
    rw [hr1def, preSave_urlCode]
    exact hcode
  have hfind1 : findOne (storeSave st.store r1) code = some r1 :=
    findOne_storeSave_self st.store code r r1 hr hr1code
  refine ⟨by rw [hget], ⟨r1, by rw [hget]; exact hfind1, hr1exp⟩, ?_⟩
  intro now1
  have hex1 : (r1.isExpired || r1.expiresAt.any (fun x => x < now1)) = true := by
    simp [hr1exp]
  rw [hget]
  exact getUrl_fst_expired code now1
    { store := storeSave st.store r1, cache := cache1 } r1 hnone1 hfind1 hex1

/-- A record in the store whose deadline (10) has passed. -/
def expiredStoreRecord : UrlRecord :=
  { demoRecord with urlCode := "exp", expiresAt := some 10 }

/-- A state holding `expiredStoreRecord` with an empty cache. -/
def expiredStoreState : ServiceState :=
  { store := [expiredStoreRecord], cache := [] }

/-- Witness for C3: at time 20 the record with deadline 10 resolves as
`Expired`, and so does a later resolve at time 25. -/
theorem resolve_expired_terminal_witness :
    (getUrl "exp" 20 expiredStoreState).1 = .error .expired ∧
    (getUrl "exp" 25 (getUrl "exp" 20 expiredStoreState).2).1 =
      .error .expired :=
  ⟨(resolve_expired_terminal "exp" 20 expiredStoreState expiredStoreRecord
      10 rfl rfl (by decide) (fun c h => by simp [cacheLookup, expiredStoreState] at h)).1,
   (resolve_expired_terminal "exp" 20 expiredStoreState expiredStoreRecord
      10 rfl rfl (by decide) (fun c h => by simp [cacheLookup, expiredStoreState] at h)).2.2 25⟩

/-! ### C4 -/

/-- The record `trackClick` writes back at time 3 for `demoRecord`. -/
def trackedRecord1 : UrlRecord :=
  { demoRecord with
      clicks := 1
      analytics := [mkEvent 3
        { ip := some "1.2.3.4", userAgent := some "Chrome", referer := none }] }

/-- A request context used by the click examples. -/
def demoReq : ReqData :=
  { ip := some "1.2.3.4", userAgent := some "Chrome", referer := none }

/-- A cache entry for `"abc"` that is fresher (5 clicks) than the store's
record (0 clicks). -/
def staleStoreState : ServiceState :=
  { store := [demoRecord], cache := [("abc", { demoRecord with clicks := 5 })] }

/-- C4 counterexample: the cache-refresh step of `trackClick` is an
unconditional `cache.set`, so on a cache state whose entry carries a
larger click count than the store's record, the completed click update
replaces the cached record (5 clicks) with one of strictly smaller
`clickCount` (1 click). -/
theorem trackClick_cache_clobbers_newer_cex :
    cacheLookup staleStoreState.cache "abc" =
      some { demoRecord with clicks := 5 } ∧
    cacheLookup (trackClick "abc" demoReq 3 staleStoreState).2.cache "abc" =
      some trackedRecord1 ∧
    trackedRecord1.clicks < ({ demoRecord with clicks := 5 } : UrlRecord).clicks := by
  exact ⟨rfl, rfl, by decide⟩

/-- C4 (amended): `trackClick` unconditionally overwrites the cache entry
with the record returned by the atomic update; whenever the cached entry's
`clickCount` does not exceed the store record's (as holds in every
sequentially reachable state), the refresh strictly increases the cached
`clickCount`, so it never replaces the cached record with one having a
smaller count. -/
theorem trackClick_cache_refresh_monotone (code : String) (rd : ReqData)
    (now : Nat) (st : ServiceState) (r c : UrlRecord)
    (hr : findOne st.store code = some r)
    (_hc : cacheLookup st.cache code = some c) (hle : c.clicks ≤ r.clicks) :
    ∃ r1, (trackClick code rd now st).1 = some r1 ∧
      cacheLookup (trackClick code rd now st).2.cache code = some r1 ∧
      c.clicks < r1.clicks := by
  refine ⟨{ r with
      clicks := r.clicks + 1
      analytics := r.analytics ++ [mkEvent now rd] }, ?_, ?_, ?_⟩
  · unfold trackClick
    rw [hr]
  · unfold trackClick
    rw [hr]
    exact cacheLookup_cacheSet_self st.cache code _
  · exact Nat.lt_succ_of_le hle

/-- Witness for C4: on a state where the cached and stored counts agree,
the refresh strictly increases the cached count. -/
theorem trackClick_cache_refresh_monotone_witness :
    ∃ r1, (trackClick "abc" demoReq 3 demoState).1 = some r1 ∧
      cacheLookup (trackClick "abc" demoReq 3 demoState).2.cache "abc" =
        some r1 ∧
      demoRecord.clicks < r1.clicks :=
  trackClick_cache_refresh_monotone "abc" demoReq 3 demoState demoRecord
    demoRecord rfl rfl (Nat.le_refl _)

/-! ### C2: the click-count invariant -/

/-- The invariant of C2: the click counter of a record equals the length
of its analytics log. -/
def clicksInv (r : UrlRecord) : Prop :=
  r.clicks = r.analytics.length

/-- All records of a state's store satisfy the click-count invariant. -/
def storeInv (st : ServiceState) : Prop :=
  ∀ r ∈ st.store, clicksInv r

/-- States reachable from the initial empty service through the service's
operations. -/
inductive Reachable : ServiceState → Prop where
  | init : Reachable { store := [], cache := [] }
  | create (l : String) (a : Option String) (eAt : Option Nat)
      (u f b : String) (now : Nat) (st : ServiceState) : Reachable st →
      Reachable (createShortUrl l a eAt u f b now st).2
  | get (c : String) (now : Nat) (st : ServiceState) : Reachable st →
      Reachable (getUrl c now st).2
  | track (c : String) (rd : ReqData) (now : Nat) (st : ServiceState) :
      Reachable st → Reachable (trackClick c rd now st).2
  | stats (c : String) (now : Nat) (st : ServiceState) : Reachable st →
      Reachable (getUrlStats c now st).2
  | del (c u : String) (st : ServiceState) : Reachable st →
      Reachable (deleteUrl c u st).2
  | bulk (items : List BulkItem) (u : String) (gen : Nat → String)
      (k : Nat) (b : String) (now : Nat) (st : ServiceState) :
      Reachable st → Reachable (createBulkUrls items u gen k b now st).2

theorem createShortUrl_store_cases (l : String) (a : Option String)
    (eAt : Option Nat) (u f b : String) (now : Nat) (st : ServiceState) :
    (createShortUrl l a eAt u f b now st).2.store = st.store ∨
    (createShortUrl l a eAt u f b now st).2.store =
      st.store ++ [builtRecord (if jsTruthy a then a.getD "" else f) l eAt u b now] := by
  by_cases h1 : (jsTruthy a && !aliasOk (a.getD "")) = true
  · left
    simp [createShortUrl, h1]
  · by_cases h2 : (jsTruthy a && (findOne st.store (a.getD "")).isSome) = true
    · left
      simp [createShortUrl, h1, h2]
    · by_cases h3 :
        (findOne st.store (if jsTruthy a then a.getD "" else f)).isSome = true
      · left
        simp [createShortUrl, h1, h2, h3]
      · right
        simp [createShortUrl, h1, h2, h3]

theorem storeInv_createShortUrl (l : String) (a : Option String)
    (eAt : Option Nat) (u f b : String) (now : Nat) (st : ServiceState)
    (h : storeInv st) : storeInv (createShortUrl l a eAt u f b now st).2 := by
  rcases createShortUrl_store_cases l a eAt u f b now st with hcase | hcase
  · intro r hr
    rw [hcase] at hr
    exact h r hr
  · intro r hr
    rw [hcase] at hr
    rcases List.mem_append.mp hr with h1 | h1
    · exact h r h1
    · have hrr : r = builtRecord (if jsTruthy a then a.getD "" else f) l eAt u b now := by
        simpa using h1
      rw [hrr]
      unfold clicksInv
      rw [builtRecord_clicks, builtRecord_analytics]
      rfl

theorem getUrlStore_store_cases (c : String) (now : Nat) (st1 : ServiceState) :
    (getUrlStore c now st1).2.store = st1.store ∨
    ∃ r ∈ st1.store, (getUrlStore c now st1).2.store =
      storeSave st1.store (preSave now { r with isExpired := true }) := by
  unfold getUrlStore
  cases hf : findOne st1.store c with
  | none => exact Or.inl rfl
  | some url =>
    by_cases hex :
        (url.isExpired || url.expiresAt.any (fun e => e < now)) = true
    · right
      refine ⟨url, (findOne_eq_some st1.store c url hf).1, ?_⟩
      simp [hex]
    · left
      simp [hex]

theorem getUrl_store_cases (c : String) (now : Nat) (st : ServiceState) :
    (getUrl c now st).2.store = st.store ∨
    ∃ r ∈ st.store, (getUrl c now st).2.store =
      storeSave st.store (preSave now { r with isExpired := true }) := by
  unfold getUrl
  cases hstep : cacheGetStep st.cache c now with
  | mk o cache1 =>
    cases o with
    | some c0 => exact Or.inl rfl
    | none =>
      rcases getUrlStore_store_cases c now { st with cache := cache1 } with
        h | ⟨r, hm, h⟩
      · exact Or.inl h
      · exact Or.inr ⟨r, hm, h⟩

theorem storeInv_getUrl (c : String) (now : Nat) (st : ServiceState)
    (h : storeInv st) : storeInv (getUrl c now st).2 := by
  rcases getUrl_store_cases c now st with hcase | ⟨r, hrmem, hcase⟩
  · intro s hs
    rw [hcase] at hs
    exact h s hs
  · intro s hs
    rw [hcase] at hs
    rcases findOne_storeSave_mem st.store _ s hs with h1 | h1
    · rw [h1]
      unfold clicksInv
      rw [preSave_clicks, preSave_analytics]
      exact h r hrmem
    · exact h s h1

theorem storeInv_trackClick (c : String) (rd : ReqData) (now : Nat)
    (st : ServiceState) (h : storeInv st) :
    storeInv (trackClick c rd now st).2 := by
  unfold trackClick
  cases hf : findOne st.store c with
  | none => exact h
  | some url =>
    intro s hs
    rcases findOne_storeSave_mem st.store _ s hs with h1 | h1
    · rw [h1]
      unfold clicksInv
      have hurl : clicksInv url := h url (findOne_eq_some st.store c url hf).1
      unfold clicksInv at hurl
      simp [hurl]
    · exact h s h1

theorem deleteUrl_store_cases (c u : String) (st : ServiceState) :
    (deleteUrl c u st).2.store = st.store ∨
    (deleteUrl c u st).2.store =
      st.store.filter (fun r => !(r.urlCode == c)) := by
  unfold deleteUrl
  cases hf : findOne st.store c with
  | none => exact Or.inl rfl
  | some url =>
    by_cases hu : (!(url.userId == u)) = true
    · left
      simp [hu]
    · right
      simp [hu]

theorem storeInv_deleteUrl (c u : String) (st : ServiceState)
    (h : storeInv st) : storeInv (deleteUrl c u st).2 := by
  rcases deleteUrl_store_cases c u st with hcase | hcase
  · intro s hs
    rw [hcase] at hs
    exact h s hs
  · intro s hs
    rw [hcase] at hs
    exact h s (List.mem_of_mem_filter hs)

theorem getUrlStats_state (c : String) (now : Nat) (st : ServiceState) :
    (getUrlStats c now st).2 = st := by
  unfold getUrlStats
  cases hf : findOne st.store c with
  | none => rfl
  | some url =>
    cases hacc : accumStats url.analytics [] [] [] with
    | error e => simp [hacc]
    | ok v =>
      rcases v with ⟨b, r, d⟩
      simp [hacc]

theorem storeInv_createBulkUrls (items : List BulkItem) (u : String)
    (gen : Nat → String) (k : Nat) (b : String) (now : Nat)
    (st : ServiceState) (h : storeInv st) :
    storeInv (createBulkUrls items u gen k b now st).2 := by
  induction items generalizing k st with
  | nil => exact h
  | cons item rest ih =>
    have hcons : (createBulkUrls (item :: rest) u gen k b now st).2 =
        (createBulkUrls rest u gen (k + 1) b now
          (createShortUrl item.longUrl item.customAlias item.expiresAt u
            (gen k) b now st).2).2 := rfl
    rw [hcons]
    exact ih (k + 1) _ (storeInv_createShortUrl item.longUrl item.customAlias
      item.expiresAt u (gen k) b now st h)

/-- C2: on every reachable state, every record's `clickCount` equals the
length of its `clickLog`; creation initializes the counter to 0 and the
log to empty; and `trackClick` — the one mutator of the two fields — is a
single atomic store update that increments the counter by exactly 1 while
appending exactly one event. -/
theorem clickCount_eq_clickLog_length :
    (∀ st, Reachable st → ∀ r ∈ st.store, r.clicks = r.analytics.length) ∧
    (∀ l (a : Option String) eAt u f b now st r,
      (createShortUrl l a eAt u f b now st).1 = .ok r →
      r.clicks = 0 ∧ r.analytics = []) ∧
    (∀ c rd now st r, findOne st.store c = some r →
      (trackClick c rd now st).1 =
        some { r with
          clicks := r.clicks + 1
          analytics := r.analytics ++ [mkEvent now rd] } ∧
      (trackClick c rd now st).2.store =
        storeSave st.store { r with
          clicks := r.clicks + 1
          analytics := r.analytics ++ [mkEvent now rd] }) := by
  refine ⟨?_, ?_, ?_⟩
  · intro st hst
    induction hst with
    | init => intro r hr; simp at hr
    | create l a eAt u f b now st0 _ ih =>
      exact storeInv_createShortUrl l a eAt u f b now st0 ih
    | get c now st0 _ ih => exact storeInv_getUrl c now st0 ih
    | track c rd now st0 _ ih => exact storeInv_trackClick c rd now st0 ih
    | stats c now st0 _ ih => rw [getUrlStats_state c now st0]; exact ih
    | del c u st0 _ ih => exact storeInv_deleteUrl c u st0 ih
    | bulk items u gen k b now st0 _ ih =>
      exact storeInv_createBulkUrls items u gen k b now st0 ih
  · intro l a eAt u f b now st r hok
    have hrr : r = builtRecord (if jsTruthy a then a.getD "" else f) l eAt u b now := by
      by_cases h1 : (jsTruthy a && !aliasOk (a.getD "")) = true
      · simp [createShortUrl, h1] at hok
      · by_cases h2 : (jsTruthy a && (findOne st.store (a.getD "")).isSome) = true
        · simp [createShortUrl, h1, h2] at hok
        · by_cases h3 :
            (findOne st.store (if jsTruthy a then a.getD "" else f)).isSome = true
          · simp [createShortUrl, h1, h2, h3] at hok
          · simp [createShortUrl, h1, h2, h3] at hok
            exact hok.symm
    rw [hrr, builtRecord_clicks, builtRecord_analytics]
    exact ⟨rfl, rfl⟩
  · intro c rd now st r hr
    unfold trackClick
    rw [hr]
    exact ⟨rfl, rfl⟩

/-- Witness for C2: the record created through a custom-alias create on
the empty state satisfies the invariant, and one tracked click on
`demoState` increments the count to 1 while appending the single event. -/
theorem clickCount_eq_clickLog_length_witness :
    ((builtRecord "f" "http://x" none "u" "b" 0).clicks =
      (builtRecord "f" "http://x" none "u" "b" 0).analytics.length) ∧
    (trackClick "abc" demoReq 3 demoState).1 =
      some { demoRecord with
        clicks := demoRecord.clicks + 1
        analytics := demoRecord.analytics ++ [mkEvent 3 demoReq] } :=
  ⟨clickCount_eq_clickLog_length.1
      (createShortUrl "http://x" none none "u" "f" "b" 0 emptyState).2
      (Reachable.create "http://x" none none "u" "f" "b" 0 emptyState
        Reachable.init)
      (builtRecord "f" "http://x" none "u" "b" 0)
      (List.mem_singleton.mpr rfl),
   (clickCount_eq_clickLog_length.2.2 "abc" demoReq 3 demoState demoRecord
      rfl).1⟩

/-! ### The analytics aggregation -/

/-- The browser label the aggregation assigns to a click whose user agent
is present. -/
def browserLabelOf (ev : ClickEvent) : String :=
  classifyBrowser (ev.userAgent.getD "")

theorem accumStats_spec :
    ∀ (evs : List ClickEvent) (b r d : List (String × Nat)),
    (∀ ev ∈ evs, ev.userAgent ≠ none) →
    ∃ bo ro dd, accumStats evs b r d = .ok (bo, ro, dd) ∧
      (∀ s, lookupCount bo s = lookupCount b s +
        evs.countP (fun ev => browserLabelOf ev == s)) ∧
      (∀ s, lookupCount ro s = lookupCount r s +
        evs.countP (fun ev => referrerOf ev == s)) := by
  intro evs
  induction evs with
  | nil =>
    intro b r d _
    exact ⟨b, r, d, rfl, fun s => by simp, fun s => by simp⟩
  | cons ev rest ih =>
    intro b r d h
    obtain ⟨ua, hua⟩ : ∃ ua, ev.userAgent = some ua := by
      cases hev : ev.userAgent with
      | none => exact absurd hev (h ev (List.mem_cons_self ev rest))
      | some ua => exact ⟨ua, rfl⟩
    have hrest : ∀ e ∈ rest, e.userAgent ≠ none :=
      fun e he => h e (List.mem_cons_of_mem ev he)
    obtain ⟨bo, ro, dd, heq, hb, hr⟩ := ih (bump b (classifyBrowser ua))
      (bump r (referrerOf ev)) (bump d (dateOf ev.timestamp)) hrest
    have hlab : browserLabelOf ev = classifyBrowser ua := by
      unfold browserLabelOf
      rw [hua]
      rfl
    refine ⟨bo, ro, dd, ?_, ?_, ?_⟩
    · show accumStats (ev :: rest) b r d = .ok (bo, ro, dd)
      unfold accumStats getBrowserFromUserAgent
      rw [hua]
      exact heq
    · intro s
      rw [hb s, List.countP_cons]
      by_cases hcs : classifyBrowser ua = s
      · have hbl : (browserLabelOf ev == s) = true := by
          rw [hlab, hcs]
          exact beq_self_eq_true s
        rw [if_pos hbl, hcs, lookupCount_bump_self]
        omega
      · have hbl : ¬ (browserLabelOf ev == s) = true := by
          rw [hlab]
          simpa using hcs
        rw [if_neg hbl, lookupCount_bump_other b (classifyBrowser ua) s
          (fun hss => hcs hss.symm)]
        omega
    · intro s
      rw [hr s, List.countP_cons]
      by_cases hcs : referrerOf ev = s
      · have hbl : (referrerOf ev == s) = true := by
          rw [hcs]
          exact beq_self_eq_true s
        rw [if_pos hbl, hcs, lookupCount_bump_self]
        omega
      · have hbl : ¬ (referrerOf ev == s) = true := by simpa using hcs
        rw [if_neg hbl, lookupCount_bump_other r (referrerOf ev) s
          (fun hss => hcs hss.symm)]
        omega

theorem accumStats_error_of_absent_agent :
    ∀ (evs : List ClickEvent), (∃ ev ∈ evs, ev.userAgent = none) →
    ∀ b r d, accumStats evs b r d = .error .typeError := by
  intro evs
  induction evs with
  | nil =>
    intro h
    rcases h with ⟨ev, hmem, _⟩
    simp at hmem
  | cons ev rest ih =>
    intro h b r d
    cases hev : ev.userAgent with
    | none =>
      show accumStats (ev :: rest) b r d = .error .typeError
      unfold accumStats getBrowserFromUserAgent
      rw [hev]
    | some ua =>
      have hrest : ∃ e ∈ rest, e.userAgent = none := by
        rcases h with ⟨e, hmem, he⟩
        rcases List.mem_cons.mp hmem with h1 | h1
        · rw [h1, hev] at he
          exact absurd he (by simp)
        · exact ⟨e, h1, he⟩
      show accumStats (ev :: rest) b r d = .error .typeError
      unfold accumStats getBrowserFromUserAgent
      rw [hev]
      exact ih hrest (bump b (classifyBrowser ua)) (bump r (referrerOf ev))
        (bump d (dateOf ev.timestamp))

theorem getUrlStats_components (code : String) (now : Nat)
    (st : ServiceState) (url : UrlRecord)
    (hr : findOne st.store code = some url) (bo ro dd : List (String × Nat))
    (hacc : accumStats url.analytics [] [] [] = .ok (bo, ro, dd)) :
    ∃ stats, (getUrlStats code now st).1 = .ok stats ∧
      stats.totalClicks = url.clicks ∧
      stats.browserStats = bo ∧ stats.referrerStats = ro ∧
      stats.averageClicksPerDay =
        (match url.analytics.head? with
         | some firstClick => round2 ((url.clicks : ℚ) /
             ((max 1 (natCeilDiv (now - firstClick.timestamp) msPerDay) : Nat) : ℚ))
         | none => 0) := by
  simp only [getUrlStats, hr]
  cases hana : url.analytics with
  | nil =>
    rw [hana] at hacc
    obtain ⟨hbo, hro, hdd⟩ : bo = [] ∧ ro = [] ∧ dd = [] := by
      have := hacc
      simp [accumStats] at this
      exact this
    subst hbo hro hdd
    exact ⟨_, rfl, rfl, rfl, rfl, rfl⟩
  | cons ev0 tail =>
    rw [hana] at hacc
    rw [hacc]
    exact ⟨_, rfl, rfl, rfl, rfl, rfl⟩

/-! ### C7 -/

/-- C7: on success, the browser histogram counts each click by the
classifier applied to its user agent — trying Chrome, Firefox, Safari and
Edge in that order with first match winning, `Other` when none matches —
and the referrer histogram counts by referer with absent or empty referers
counted as `Direct`; each counter equals the number of click events in its
class.  (The classifier needs every user agent present; see C10.) -/
theorem stats_partition (code : String) (now : Nat) (st : ServiceState)
    (url : UrlRecord) (hr : findOne st.store code = some url)
    (hua : ∀ ev ∈ url.analytics, ev.userAgent ≠ none) :
    ∃ stats, (getUrlStats code now st).1 = .ok stats ∧
      (∀ s, lookupCount stats.browserStats s =
        url.analytics.countP (fun ev => browserLabelOf ev == s)) ∧
      (∀ s, lookupCount stats.referrerStats s =
        url.analytics.countP (fun ev => referrerOf ev == s)) ∧
      (∀ ua,
        (strContains ua "Chrome" = true → classifyBrowser ua = "Chrome") ∧
        (strContains ua "Chrome" = false → strContains ua "Firefox" = true →
          classifyBrowser ua = "Firefox") ∧
        (strContains ua "Chrome" = false → strContains ua "Firefox" = false →
          strContains ua "Safari" = true → classifyBrowser ua = "Safari") ∧
        (strContains ua "Chrome" = false → strContains ua "Firefox" = false →
          strContains ua "Safari" = false → strContains ua "Edge" = true →
          classifyBrowser ua = "Edge") ∧
        (strContains ua "Chrome" = false → strContains ua "Firefox" = false →
          strContains ua "Safari" = false → strContains ua "Edge" = false →
          classifyBrowser ua = "Other")) ∧
      (∀ ev : ClickEvent, ev.referer = none ∨ ev.referer = some "" →
        referrerOf ev = "Direct") := by
  obtain ⟨bo, ro, dd, hacc, hb, hrf⟩ :=
    accumStats_spec url.analytics [] [] [] hua
  obtain ⟨stats, hstats, _, hbs, hrs, _⟩ :=
    getUrlStats_components code now st url hr bo ro dd hacc
  refine ⟨stats, hstats, ?_, ?_, ?_, ?_⟩
  · intro s
    rw [hbs, hb s]
    simp [lookupCount]
  · intro s
    rw [hrs, hrf s]
    simp [lookupCount]
  · intro ua
    refine ⟨?_, ?_, ?_, ?_, ?_⟩
    · intro h1
      simp [classifyBrowser, h1]
    · intro h1 h2
      simp [classifyBrowser, h1, h2]
    · intro h1 h2 h3
      simp [classifyBrowser, h1, h2, h3]
    · intro h1 h2 h3 h4
      simp [classifyBrowser, h1, h2, h3, h4]
    · intro h1 h2 h3 h4
      simp [classifyBrowser, h1, h2, h3, h4]
  · intro ev h
    rcases h with h | h <;> simp [referrerOf, h]

/-- A click with a Chrome user agent and a referer. -/
def chromeClick : ClickEvent :=
  { timestamp := 0
    ipAddress := none
    userAgent := some "Mozilla/5.0 Chrome/99"
    referer := some "google.com" }

/-- A click with an unclassifiable user agent and no referer. -/
def otherClick : ClickEvent :=
  { timestamp := 86400001
    ipAddress := none
    userAgent := some "curl/7.1"
    referer := none }

/-- A record with two clicks on record. -/
def clickedRecord : UrlRecord :=
  { demoRecord with
      urlCode := "hit"
      clicks := 2
      analytics := [chromeClick, otherClick] }

/-- A state holding `clickedRecord`. -/
def clickedState : ServiceState := { store := [clickedRecord], cache := [] }

/-- Witness for C7 at the two-click record. -/
theorem stats_partition_witness :
    ∃ stats, (getUrlStats "hit" 5 clickedState).1 = .ok stats ∧
      (∀ s, lookupCount stats.browserStats s =
        clickedRecord.analytics.countP (fun ev => browserLabelOf ev == s)) ∧
      (∀ s, lookupCount stats.referrerStats s =
        clickedRecord.analytics.countP (fun ev => referrerOf ev == s)) ∧
      (∀ ua,
        (strContains ua "Chrome" = true → classifyBrowser ua = "Chrome") ∧
        (strContains ua "Chrome" = false → strContains ua "Firefox" = true →
          classifyBrowser ua = "Firefox") ∧
        (strContains ua "Chrome" = false → strContains ua "Firefox" = false →
          strContains ua "Safari" = true → classifyBrowser ua = "Safari") ∧
        (strContains ua "Chrome" = false → strContains ua "Firefox" = false →
          strContains ua "Safari" = false → strContains ua "Edge" = true →
          classifyBrowser ua = "Edge") ∧
        (strContains ua "Chrome" = false → strContains ua "Firefox" = false →
          strContains ua "Safari" = false → strContains ua "Edge" = false →
          classifyBrowser ua = "Other")) ∧
      (∀ ev : ClickEvent, ev.referer = none ∨ ev.referer = some "" →
        referrerOf ev = "Direct") :=
  stats_partition "hit" 5 clickedState clickedRecord rfl (by decide)

/-! ### C8 -/

/-- C8: on success, `averageClicksPerDay` equals
`clickCount / max(1, ceil((now - firstClickTimestamp) / 1 day))` rounded to
two decimal places, where `firstClickTimestamp` is the timestamp of the
first event of the log; it equals 0 when the log is empty. -/
theorem stats_average_clicks_per_day (code : String) (now : Nat)
    (st : ServiceState) (url : UrlRecord)
    (hr : findOne st.store code = some url)
    (hua : ∀ ev ∈ url.analytics, ev.userAgent ≠ none) :
    ∃ stats, (getUrlStats code now st).1 = .ok stats ∧
      (url.analytics = [] → stats.averageClicksPerDay = 0) ∧
      (∀ ev0 rest, url.analytics = ev0 :: rest →
        stats.averageClicksPerDay =
          round2 ((url.clicks : ℚ) /
            ((max 1 (natCeilDiv (now - ev0.timestamp) msPerDay) : Nat) : ℚ))) := by
  obtain ⟨bo, ro, dd, hacc, _, _⟩ :=
    accumStats_spec url.analytics [] [] [] hua
  obtain ⟨stats, hstats, _, _, _, havg⟩ :=
    getUrlStats_components code now st url hr bo ro dd hacc
  refine ⟨stats, hstats, ?_, ?_⟩
  · intro hnil
    rw [havg, hnil]
    rfl
  · intro ev0 rest hcons
    rw [havg, hcons]
    rfl

/-- Witness for C8: for the two-click record, first click at time 0 and
`now = 5`, the window is one day and the average is `2.00`. -/
theorem stats_average_clicks_per_day_witness :
    ∃ stats, (getUrlStats "hit" 5 clickedState).1 = .ok stats ∧
      (clickedRecord.analytics = [] → stats.averageClicksPerDay = 0) ∧
      (∀ ev0 rest, clickedRecord.analytics = ev0 :: rest →
        stats.averageClicksPerDay =
          round2 ((clickedRecord.clicks : ℚ) /
            ((max 1 (natCeilDiv (5 - ev0.timestamp) msPerDay) : Nat) : ℚ))) :=
  stats_average_clicks_per_day "hit" 5 clickedState clickedRecord rfl
    (by decide)

/-! ### C10 -/

/-- C10: a record holding at least one click event without a user agent
(as recorded when the redirect request carries no `User-Agent` header)
makes the stats aggregation fail with the classifier's `TypeError` instead
of counting the event as `Other`. -/
theorem stats_error_on_absent_user_agent (code : String) (now : Nat)
    (st : ServiceState) (url : UrlRecord)
    (hr : findOne st.store code = some url)
    (h : ∃ ev ∈ url.analytics, ev.userAgent = none) :
    (getUrlStats code now st).1 = .error .typeError ∧
    (∀ now1 i rf,
      (mkEvent now1 { ip := i, userAgent := none, referer := rf }).userAgent =
        none) := by
  constructor
  · have hacc := accumStats_error_of_absent_agent url.analytics h [] [] []
    simp [getUrlStats, hr, hacc]
  · intro now1 i rf
    rfl

/-- A click recorded from a request without a `User-Agent` header. -/
def headlessClick : ClickEvent :=
  { timestamp := 3, ipAddress := none, userAgent := none, referer := none }

/-- A record whose single click has no user agent. -/
def headlessRecord : UrlRecord :=
  { demoRecord with urlCode := "na", clicks := 1, analytics := [headlessClick] }

/-- A state holding `headlessRecord`. -/
def headlessState : ServiceState := { store := [headlessRecord], cache := [] }

/-- Witness for C10: the stats call on the headless-click record errors. -/
theorem stats_error_on_absent_user_agent_witness :
    (getUrlStats "na" 9 headlessState).1 = .error .typeError ∧
    (∀ now1 i rf,
      (mkEvent now1 { ip := i, userAgent := none, referer := rf }).userAgent =
        none) :=
  stats_error_on_absent_user_agent "na" 9 headlessState headlessRecord rfl
    (by decide)

/-! ### C9 -/

/-- C9: `createBulkUrls` returns exactly one outcome per input item, in
input order (the i-th outcome carries the i-th item's `originalUrl`); a
failed item is captured as an unsuccessful outcome carrying its
`originalUrl` and an error, a successful one carries its short URL; and
the loop never aborts or surfaces an aggregate failure — the result is
always a plain outcome list of the full input length. -/
theorem createBulk_per_item_outcomes (items : List BulkItem) (uid : String)
    (gen : Nat → String) (k : Nat) (baseUrl : String) (now : Nat)
    (st : ServiceState) :
    ((createBulkUrls items uid gen k baseUrl now st).1).length = items.length ∧
    List.Forall₂
      (fun (out : BulkOutcome) (item : BulkItem) =>
        out.originalUrl = item.longUrl ∧
        (out.success = false → out.shortUrl = none ∧ out.error.isSome) ∧
        (out.success = true → out.error = none ∧ out.shortUrl.isSome))
      (createBulkUrls items uid gen k baseUrl now st).1 items := by
  induction items generalizing k st with
  | nil => exact ⟨rfl, List.Forall₂.nil⟩
  | cons item rest ih =>
    obtain ⟨ihlen, ihall⟩ := ih (k + 1)
      (createShortUrl item.longUrl item.customAlias item.expiresAt uid
        (gen k) baseUrl now st).2
    cases hstep : (createShortUrl item.longUrl item.customAlias
        item.expiresAt uid (gen k) baseUrl now st).1 with
    | ok url =>
      have hcons : (createBulkUrls (item :: rest) uid gen k baseUrl now st).1 =
          { success := true
            originalUrl := item.longUrl
            shortUrl := some url.shortUrl
            error := none } ::
          (createBulkUrls rest uid gen (k + 1) baseUrl now
            (createShortUrl item.longUrl item.customAlias item.expiresAt uid
              (gen k) baseUrl now st).2).1 := by
        simp only [createBulkUrls, hstep]
      rw [hcons]
      refine ⟨by simp [ihlen], ?_⟩
      exact List.Forall₂.cons ⟨rfl, by simp, fun _ => ⟨rfl, by simp⟩⟩ ihall
    | error e =>
      have hcons : (createBulkUrls (item :: rest) uid gen k baseUrl now st).1 =
          { success := false
            originalUrl := item.longUrl
            shortUrl := none
            error := some e } ::
          (createBulkUrls rest uid gen (k + 1) baseUrl now
            (createShortUrl item.longUrl item.customAlias item.expiresAt uid
              (gen k) baseUrl now st).2).1 := by
        simp only [createBulkUrls, hstep]
      rw [hcons]
      refine ⟨by simp [ihlen], ?_⟩
      exact List.Forall₂.cons ⟨rfl, fun _ => ⟨rfl, by simp⟩, by simp⟩ ihall

end UrlShortner
